import Mathlib

/-!
Shallow embedding of the PicPow compression core: the quality table
(`src/core/config.ts`), the codec engine (`src/core/engine-wasm.ts`),
the unified compression entry point (`src/core/compressor.ts`), the
worker message handler (`src/core/worker.ts`), the queue orchestration
(`src/hooks/useCompressor.ts`) and the file utilities
(`src/utils/file-io.ts`).
-/

/-- Closed format enumeration, `SupportedFormat` in `engine-wasm.ts`. -/
inductive SupportedFormat where
  | jpeg | png | webp | avif | jxl | heic
deriving DecidableEq, Repr

/-- Closed quality-level enumeration, `QualityLevel` in `config.ts`. -/
inductive QualityLevel where
  | lossless | high | balanced | low
deriving DecidableEq, Repr

/-- Per (format, level) configuration entry, `LevelConfig` in `config.ts`.
Optional TS fields become `Option`; `extra` is the optional map of
extra encoder parameters (`method` for webp, `speed` for avif). -/
structure LevelConfig where
  label : String
  description : String
  value : Option Nat := none
  isLossless : Option Bool := none
  extra : Option (List (String × Nat)) := none
  supported : Bool
deriving DecidableEq, Repr

/-- The static quality table `COMPRESSION_CONFIG` of `config.ts`,
transcribed row by row. -/
def COMPRESSION_CONFIG : SupportedFormat → QualityLevel → LevelConfig
  | .jpeg, .lossless =>
      { label := "不支持无损", description := "JPEG 不支持无损，回退至高质量",
        value := some 90, supported := false }
  | .jpeg, .high =>
      { label := "高质量", description := "Quality: 90", value := some 90, supported := true }
  | .jpeg, .balanced =>
      { label := "平衡", description := "Quality: 80", value := some 80, supported := true }
  | .jpeg, .low =>
      { label := "高压缩比", description := "Quality: 60", value := some 60, supported := true }
  | .png, .lossless =>
      { label := "无损", description := "纯无损格式，压缩优化等级 2",
        value := some 2, isLossless := some true, supported := true }
  | .png, .high =>
      { label := "高质量", description := "压缩优化等级 2",
        value := some 2, isLossless := some true, supported := true }
  | .png, .balanced =>
      { label := "平衡", description := "压缩优化等级 3",
        value := some 3, isLossless := some true, supported := true }
  | .png, .low =>
      { label := "高压缩比", description := "压缩优化等级 4",
        value := some 4, isLossless := some true, supported := true }
  | .webp, .lossless =>
      { label := "无损", description := "WebP 无损模式",
        isLossless := some true, supported := true }
  | .webp, .high =>
      { label := "高质量", description := "Quality: 85", value := some 85,
        extra := some [("method", 4)], supported := true }
  | .webp, .balanced =>
      { label := "平衡", description := "Quality: 75", value := some 75,
        extra := some [("method", 4)], supported := true }
  | .webp, .low =>
      { label := "高压缩比", description := "Quality: 60", value := some 60,
        extra := some [("method", 4)], supported := true }
  | .avif, .lossless =>
      { label := "无损", description := "AVIF 无损模式",
        isLossless := some true, supported := true }
  | .avif, .high =>
      { label := "高质量", description := "Quality: 75", value := some 75,
        extra := some [("speed", 8)], supported := true }
  | .avif, .balanced =>
      { label := "平衡", description := "Quality: 65", value := some 65,
        extra := some [("speed", 8)], supported := true }
  | .avif, .low =>
      { label := "高压缩比", description := "Quality: 50", value := some 50,
        extra := some [("speed", 8)], supported := true }
  | .jxl, .lossless =>
      { label := "无损", description := "JXL 无损模式",
        isLossless := some true, supported := true }
  | .jxl, .high =>
      { label := "高质量", description := "Quality: 90", value := some 90, supported := true }
  | .jxl, .balanced =>
      { label := "平衡", description := "Quality: 80", value := some 80, supported := true }
  | .jxl, .low =>
      { label := "高压缩比", description := "Quality: 60", value := some 60, supported := true }
  | .heic, .lossless => { label := "无损", description := "-", supported := false }
  | .heic, .high => { label := "高质量", description := "-", supported := false }
  | .heic, .balanced => { label := "平衡", description := "-", supported := false }
  | .heic, .low => { label := "高压缩比", description := "-", supported := false }

/-- The `MIME_TO_FORMAT` lookup record of `engine-wasm.ts` as a partial map. -/
def MIME_TO_FORMAT (mime : String) : Option SupportedFormat :=
  if mime = "image/jpeg" then some .jpeg
  else if mime = "image/jpg" then some .jpeg
  else if mime = "image/png" then some .png
  else if mime = "image/webp" then some .webp
  else if mime = "image/avif" then some .avif
  else if mime = "image/jxl" then some .jxl
  else if mime = "image/heic" then some .heic
  else if mime = "image/heif" then some .heic
  else none

/-- The `FORMAT_TO_MIME` record of `engine-wasm.ts`. -/
def FORMAT_TO_MIME : SupportedFormat → String
  | .jpeg => "image/jpeg"
  | .png => "image/png"
  | .webp => "image/webp"
  | .avif => "image/avif"
  | .jxl => "image/jxl"
  | .heic => "image/heic"

/-- JS `toLowerCase`, modelled characterwise with `Char.toLower`
(structural recursion over the character list). -/
def lowerAscii (s : String) : String :=
  ⟨s.data.map Char.toLower⟩

/-- `mimeToFormat` of `engine-wasm.ts`: lowercases, then looks the mime up. -/
def mimeToFormat (mime : String) : Option SupportedFormat :=
  MIME_TO_FORMAT (lowerAscii mime)

/-- `formatToMime` of `engine-wasm.ts`. -/
def formatToMime (format : SupportedFormat) : String :=
  FORMAT_TO_MIME format

/-- Which decode route `decodeImage` of `engine-wasm.ts` takes: a
dedicated per-format decoder branch, or the `decodeWithCanvas` fallback
taken when `mimeToFormat` recognises no format. -/
inductive DecodePath where
  | dedicated (format : SupportedFormat)
  | canvasFallback
deriving DecidableEq, Repr

/-- The branch structure of `decodeImage` in `engine-wasm.ts`: each of the
six formats has its own decoder branch; any unrecognised mime falls
through to `decodeWithCanvas`. -/
def decodeImagePath (mime : String) : DecodePath :=
  match mimeToFormat mime with
  | some format => .dedicated format
  | none => .canvasFallback

/-- The options record assembled for the JXL encoder in `encodeImage`
(`engine-wasm.ts`, step 5). -/
structure JxlOptions where
  effort : Nat
  quality : Nat
  progressive : Bool
  epf : Int
  lossyPalette : Bool
  decodingSpeedTier : Nat
  photonNoiseIso : Nat
  lossyModular : Bool
deriving DecidableEq, Repr

/-- The codec invocation performed by `encodeImage` in `engine-wasm.ts`,
one constructor per underlying encoder call shape. -/
inductive EncodeCall where
  | jpegEncode (quality : Nat)
  | pngReencodeThenOptimise (level : Nat)
  | webpEncodeLossless
  | webpEncode (quality : Nat) (extra : List (String × Nat))
  | avifEncodeLossless
  | avifEncode (quality : Nat) (extra : List (String × Nat))
  | jxlEncode (options : JxlOptions)
deriving DecidableEq, Repr

/-- Effort field of a JXL encode call (0 for any other call). -/
def EncodeCall.jxlEffort : EncodeCall → Nat
  | .jxlEncode o => o.effort
  | _ => 0

/-- Quality field of a JXL encode call (0 for any other call). -/
def EncodeCall.jxlQuality : EncodeCall → Nat
  | .jxlEncode o => o.quality
  | _ => 0

/-- `encodeImage` of `engine-wasm.ts`, as the codec call it performs.
The decoded pixel buffer enters only through its `width`/`height`
(the JXL effort policy reads nothing else from it). Mirrors the source:
`quality = config?.value ?? 80`, `isLossless = config?.isLossless ?? false`,
then the per-format `switch`. -/
def encodeImage (width height : Nat) (format : SupportedFormat)
    (qualityMode : QualityLevel) : EncodeCall :=
  let config := COMPRESSION_CONFIG format qualityMode
  let quality := config.value.getD 80
  let isLossless := config.isLossless.getD false
  match format with
  | .jpeg => .jpegEncode quality
  | .png => .pngReencodeThenOptimise 2
  | .webp =>
      if isLossless then .webpEncodeLossless
      else .webpEncode quality (config.extra.getD [])
  | .avif =>
      if isLossless then .avifEncodeLossless
      else .avifEncode quality (config.extra.getD [("speed", 8)])
  | .jxl =>
      let totalPixels := width * height
      let dynamicEffort :=
        if totalPixels < 250000 then 5
        else if totalPixels < 500000 then 3
        else if totalPixels < 1500000 then 2
        else 1
      let finalQuality := if isLossless then 100 else quality
      .jxlEncode
        { effort := dynamicEffort, quality := finalQuality, progressive := false,
          epf := -1, lossyPalette := false, decodingSpeedTier := 0,
          photonNoiseIso := 0, lossyModular := false }
  | .heic =>
      .jpegEncode (if quality ≥ 90 then 90 else if quality ≥ 80 then 80 else 60)

/-- Observable outcome of one successful `compressFile` run
(`compressor.ts`): which decode route ran, which codec call encoded,
and the mime type stamped on the returned `Blob`. -/
structure CompressRun where
  decodePath : DecodePath
  encode : EncodeCall
  blobMime : String
deriving DecidableEq, Repr

/-- `compressFile` of `compressor.ts`. It throws `不支持的输入格式`
when `mimeToFormat` rejects the input mime — before any decoding —
otherwise decodes, encodes to `format ?? inputFormat`, and wraps the
bytes in a `Blob` typed `formatToMime(outputFormat)`. The decoded
dimensions are inputs of the model. -/
def compressFile (fileMime : String) (width height : Nat)
    (quality : QualityLevel) (format : Option SupportedFormat) :
    Except String CompressRun :=
  match mimeToFormat fileMime with
  | none => .error ("不支持的输入格式: " ++ fileMime)
  | some inputFormat =>
      let outputFormat := format.getD inputFormat
      .ok { decodePath := decodeImagePath fileMime,
            encode := encodeImage width height outputFormat quality,
            blobMime := formatToMime outputFormat }

/-- Does the first character list start with the second? -/
def startsWithList : List Char → List Char → Bool
  | _, [] => true
  | [], _ :: _ => false
  | c :: cs, d :: ds => c = d && startsWithList cs ds

/-- Does the first character list contain the second as a contiguous run? -/
def containsList : List Char → List Char → Bool
  | [], needle => needle.isEmpty
  | c :: cs, needle => startsWithList (c :: cs) needle || containsList cs needle

/-- Substring test used to model JS `String.includes`. -/
def includesSub (s sub : String) : Bool :=
  containsList s.data sub.data

/-- The error-message rewriting in the worker's catch block
(`worker.ts`): memory-exhaustion indicators are replaced by a
user-facing message. -/
def translateError (msg : String) : String :=
  if includesSub msg "unreachable" || includesSub msg "memory" || includesSub msg "OOM"
  then "压缩失败: 内存不足(图片尺寸过大)"
  else msg

/-- A request message received by the worker (`worker.ts`):
`{id, file, options}` with the file represented by its mime and decoded
dimensions. -/
structure WorkerRequest where
  id : String
  fileMime : String
  width : Nat
  height : Nat
  quality : QualityLevel
  format : Option SupportedFormat
deriving Repr

/-- A response message posted by the worker (`worker.ts`): either
`{id, success: true, blob, time}` or `{id, success: false, error}`. -/
inductive WorkerResponse where
  | success (id : String) (blob : CompressRun) (time : Nat)
  | failure (id : String) (error : String)
deriving DecidableEq, Repr

/-- The id carried by a worker response. -/
def WorkerResponse.rid : WorkerResponse → String
  | .success i _ _ => i
  | .failure i _ => i

/-- The `self.onmessage` handler of `worker.ts`: runs `compressFile`
inside try/catch and posts exactly one message — success with the blob
and elapsed time, or failure with the (translated) error message.
The elapsed time is an input of the model. -/
def workerOnMessage (req : WorkerRequest) (elapsed : Nat) : WorkerResponse :=
  match compressFile req.fileMime req.width req.height req.quality req.format with
  | .ok blob => .success req.id blob elapsed
  | .error msg => .failure req.id (translateError msg)

/-- Task status enumeration `FileStatus` of `useCompressor.ts`. -/
inductive FileStatus where
  | pending | compressing | done | error
deriving DecidableEq, Repr

/-- The `CompressedFile` queue entry of `useCompressor.ts`
(fields relevant to queue-state transitions). -/
structure CompressedFile where
  id : String
  name : String
  originalSize : Nat
  compressedSize : Option Nat
  ratio : Option Int
  time : Option Nat
  status : FileStatus
  error : Option String
  outputFormat : SupportedFormat
deriving DecidableEq, Repr

/-- The generic engine-crashed message set by the worker `onerror`
handler in `useCompressor.ts`. -/
def engineCrashMsg : String := "压缩引擎崩溃(不支持该格式或内存不足)"

/-- The `w.onerror` state update of `initWorker` in `useCompressor.ts`:
every file currently `compressing` becomes `error` with
`engineCrashMsg`; every other file is mapped to itself. -/
def onWorkerFatalError (files : List CompressedFile) : List CompressedFile :=
  files.map fun f =>
    if f.status = .compressing
    then { f with status := .error, error := some engineCrashMsg }
    else f

/-- `compressionRatio` of `file-io.ts`:
`Math.round(((original - compressed) / original) * 100)`, and 0 when
`original` is 0. JS `Math.round` rounds half toward +∞, exactly
Mathlib's `round` on ℚ. -/
def compressionRatio (original compressed : Nat) : Int :=
  if original = 0 then 0
  else round ((((original : ℚ) - (compressed : ℚ)) / (original : ℚ)) * 100)

/-- Round on rationals is monotone. -/
lemma roundQ_mono {x y : ℚ} (h : x ≤ y) : round x ≤ round y := by
  rw [round_eq, round_eq]
  exact Int.floor_le_floor (by linarith)

/-- The ratio expression is nonnegative when the output did not grow. -/
lemma ratioVal_nonneg {o c : ℕ} (h : c ≤ o) :
    0 ≤ (((o : ℚ) - (c : ℚ)) / (o : ℚ)) * 100 := by
  have hsub : (0 : ℚ) ≤ (o : ℚ) - c := by
    have : (c : ℚ) ≤ o := by exact_mod_cast h
    linarith
  have hdiv : (0 : ℚ) ≤ ((o : ℚ) - c) / o :=
    div_nonneg hsub (by positivity)
  have := mul_le_mul_of_nonneg_right hdiv (by norm_num : (0 : ℚ) ≤ 100)
  nlinarith

/-- The ratio expression is nonpositive when the output grew or matched. -/
lemma ratioVal_nonpos {o c : ℕ} (h : o ≤ c) :
    (((o : ℚ) - (c : ℚ)) / (o : ℚ)) * 100 ≤ 0 := by
  rcases Nat.eq_zero_or_pos o with h0 | hop
  · subst h0; simp
  · have hoq : (0 : ℚ) < o := by exact_mod_cast hop
    have hsub : (o : ℚ) - c ≤ 0 := by
      have : (o : ℚ) ≤ c := by exact_mod_cast h
      linarith
    have hdiv : ((o : ℚ) - c) / o ≤ 0 :=
      div_nonpos_iff.mpr (Or.inr ⟨hsub, hoq.le⟩)
    have := mul_le_mul_of_nonneg_right hdiv (by norm_num : (0 : ℚ) ≤ 100)
    nlinarith

/-- Claim C1, evaluated at a failing input: for a heic-target request the
engine does substitute a jpeg encode at quality 80 — which is the member
of 60/80/90 nearest to the resolved numeric quality (80 for every heic
row) — but `compressFile` stamps the returned blob with mime
`image/heic`, not `image/jpeg` as the claim states, because the blob
mime is computed from the requested output format, not from the codec
actually used. -/
theorem claim_C1_eval :
    ∀ q : QualityLevel,
      (COMPRESSION_CONFIG .heic q).value.getD 80 = 80 ∧
      compressFile ("image/png") 64 64 q (some .heic) =
        .ok { decodePath := .dedicated .png, encode := .jpegEncode 80,
              blobMime := "image/heic" } := by
  intro q; cases q <;> exact ⟨rfl, rfl⟩

/-- Claim C2, counterexample: at quality level balanced the resolved PNG
optimize level is 3, yet the encode path invokes the optimizer at level
2, so the claim that the optimizer runs at the level resolved from the
quality table is false. -/
theorem claim_C2_counterexample :
    (encodeImage 64 64 .png .balanced ==
        .pngReencodeThenOptimise ((COMPRESSION_CONFIG .png .balanced).value.getD 80)) = false ∧
    (COMPRESSION_CONFIG .png .balanced).value.getD 80 = 3 ∧
    encodeImage 64 64 .png .balanced = .pngReencodeThenOptimise 2 :=
  ⟨by decide, rfl, rfl⟩

/-- Claim C2, amended: for every PNG encode at any quality level, the
pixel buffer is re-encoded to PNG and passed through the lossless size
optimizer at the fixed optimize level 2, ignoring the level that the
quality table resolves. -/
theorem claim_C2_amended :
    ∀ (w h : Nat) (q : QualityLevel),
      encodeImage w h .png q = .pngReencodeThenOptimise 2 := by
  intro w h q; rfl

/-- Claim C3: for every JXL encode of a w×h image, the effort parameter
equals the step function of the pixel count (5 below 250000, 3 below
500000, 2 below 1500000, else 1), independent of the quality level, and
the step is monotone non-increasing: a larger pixel count never gets a
larger effort tier. -/
theorem claim_C3 :
    (∀ (w h : Nat) (q : QualityLevel),
        (encodeImage w h .jxl q).jxlEffort =
          (if w * h < 250000 then 5 else if w * h < 500000 then 3
           else if w * h < 1500000 then 2 else 1)) ∧
    (∀ (w₁ h₁ : Nat) (q₁ : QualityLevel) (w₂ h₂ : Nat) (q₂ : QualityLevel),
        w₁ * h₁ ≤ w₂ * h₂ →
        (encodeImage w₂ h₂ .jxl q₂).jxlEffort ≤ (encodeImage w₁ h₁ .jxl q₁).jxlEffort) := by
  constructor
  · intro w h q; rfl
  · intro w₁ h₁ q₁ w₂ h₂ q₂ hle
    have e₁ : (encodeImage w₁ h₁ .jxl q₁).jxlEffort =
        (if w₁ * h₁ < 250000 then 5 else if w₁ * h₁ < 500000 then 3
         else if w₁ * h₁ < 1500000 then 2 else 1) := rfl
    have e₂ : (encodeImage w₂ h₂ .jxl q₂).jxlEffort =
        (if w₂ * h₂ < 250000 then 5 else if w₂ * h₂ < 500000 then 3
         else if w₂ * h₂ < 1500000 then 2 else 1) := rfl
    rw [e₁, e₂]
    split_ifs <;> omega

/-- Claim C3 witness: a 2,000,000-pixel image receives an effort tier no
larger than a 1,000,000-pixel image. -/
theorem claim_C3_witness :
    1000 * 1000 ≤ 2000 * 1000 ∧
    (encodeImage 2000 1000 .jxl .high).jxlEffort ≤
      (encodeImage 1000 1000 .jxl .balanced).jxlEffort :=
  ⟨by norm_num, claim_C3.2 1000 1000 .balanced 2000 1000 .high (by norm_num)⟩

/-- Claim C4: for every JXL encode, when the resolved config is lossless
the quality passed to the encoder is forced to 100, overriding the
resolved numeric value; otherwise it equals the resolved numeric value
(with the source default of 80 when the row carries none). -/
theorem claim_C4 (w h : Nat) (q : QualityLevel) :
    ((COMPRESSION_CONFIG .jxl q).isLossless.getD false = true →
        (encodeImage w h .jxl q).jxlQuality = 100) ∧
    ((COMPRESSION_CONFIG .jxl q).isLossless.getD false = false →
        (encodeImage w h .jxl q).jxlQuality =
          (COMPRESSION_CONFIG .jxl q).value.getD 80) := by
  cases q <;> constructor <;> intro hh <;>
    first
      | rfl
      | exact absurd hh (by decide)

/-- Claim C4 witness: the lossless JXL row is lossless and the encoder
receives quality 100 for it. -/
theorem claim_C4_witness :
    (COMPRESSION_CONFIG .jxl .lossless).isLossless.getD false = true ∧
    (encodeImage 10 10 .jxl .lossless).jxlQuality = 100 :=
  ⟨by decide, (claim_C4 10 10 .lossless).1 (by decide)⟩

/-- Claim C5, counterexample: for an input mime absent from the dispatch
table, `compressFile` fails outright with the unsupported-format error —
the generic canvas fallback never runs in the pipeline, although
`decodeImage` on its own would route such a mime to the fallback. -/
theorem claim_C5_counterexample :
    compressFile ("image/bmp") 64 64 .balanced none =
      .error ("不支持的输入格式: image/bmp") ∧
    decodeImagePath ("image/bmp") = .canvasFallback :=
  ⟨rfl, rfl⟩

/-- Claim C5, amended: every input whose mime the dispatch table does not
cover is rejected by `compressFile` with the unsupported-format error
before any decoding; the canvas bitmap-surface fallback is the route
`decodeImage` reserves for exactly those mimes, but the compression
pipeline never reaches it. -/
theorem claim_C5_amended (mime : String) (w h : Nat) (q : QualityLevel)
    (fmt : Option SupportedFormat) (hm : mimeToFormat mime = none) :
    compressFile mime w h q fmt = .error ("不支持的输入格式: " ++ mime) ∧
    decodeImagePath mime = .canvasFallback := by
  constructor
  · simp [compressFile, hm]
  · simp [decodeImagePath, hm]

/-- Claim C5 witness: the amended statement at the concrete mime
`image/bmp`. -/
theorem claim_C5_witness :
    compressFile ("image/bmp") 32 32 .low none =
      .error ("不支持的输入格式: " ++ "image/bmp") ∧
    decodeImagePath ("image/bmp") = .canvasFallback :=
  claim_C5_amended ("image/bmp") 32 32 .low none (by decide)

/-- Claim C6: the worker posts exactly one response per request — the
handler is a total function into one response message — carrying the id
of the request, and the response is a success with the encoded blob and
elapsed time exactly when compression succeeded, or a failure carrying
the (translated) error string exactly when it failed, never both. -/
theorem claim_C6 (req : WorkerRequest) (t : Nat) :
    (workerOnMessage req t).rid = req.id ∧
    ((∃ run, compressFile req.fileMime req.width req.height req.quality req.format = .ok run ∧
        workerOnMessage req t = .success req.id run t) ∨
     (∃ msg, compressFile req.fileMime req.width req.height req.quality req.format = .error msg ∧
        workerOnMessage req t = .failure req.id (translateError msg))) ∧
    (∀ i₁ b t₁ i₂ m, workerOnMessage req t = .success i₁ b t₁ →
        workerOnMessage req t ≠ .failure i₂ m) := by
  rcases hc : compressFile req.fileMime req.width req.height req.quality req.format with msg | run
  · refine ⟨by simp [workerOnMessage, hc, WorkerResponse.rid],
      Or.inr ⟨msg, rfl, by simp [workerOnMessage, hc]⟩, ?_⟩
    intro i₁ b t₁ i₂ m hsucc
    simp [workerOnMessage, hc] at hsucc
  · refine ⟨by simp [workerOnMessage, hc, WorkerResponse.rid],
      Or.inl ⟨run, rfl, by simp [workerOnMessage, hc]⟩, ?_⟩
    intro i₁ b t₁ i₂ m hsucc hfail
    simp [workerOnMessage, hc] at hfail

/-- Request used to witness the worker protocol claim. -/
def reqSample : WorkerRequest :=
  { id := "req-1", fileMime := "image/jpeg", width := 8, height := 8,
    quality := .balanced, format := none }

/-- Claim C6 witness: the protocol guarantees at a concrete request. -/
theorem claim_C6_witness :
    (workerOnMessage reqSample 7).rid = reqSample.id ∧
    ((∃ run, compressFile reqSample.fileMime reqSample.width reqSample.height
          reqSample.quality reqSample.format = .ok run ∧
        workerOnMessage reqSample 7 = .success reqSample.id run 7) ∨
     (∃ msg, compressFile reqSample.fileMime reqSample.width reqSample.height
          reqSample.quality reqSample.format = .error msg ∧
        workerOnMessage reqSample 7 = .failure reqSample.id (translateError msg))) ∧
    (∀ i₁ b t₁ i₂ m, workerOnMessage reqSample 7 = .success i₁ b t₁ →
        workerOnMessage reqSample 7 ≠ .failure i₂ m) :=
  claim_C6 reqSample 7

/-- Claim C7: after a fatal worker error, the queue update leaves the
list length unchanged, turns every file that was `compressing` into an
`error` entry carrying the generic engine-crashed message while keeping
all its other fields, and leaves every file in any other status
completely unchanged. -/
theorem claim_C7 (files : List CompressedFile) (i : Nat) (f : CompressedFile)
    (hf : files[i]? = some f) :
    (onWorkerFatalError files).length = files.length ∧
    (onWorkerFatalError files)[i]? =
      some (if f.status = .compressing
            then { f with status := .error, error := some engineCrashMsg }
            else f) := by
  constructor
  · simp [onWorkerFatalError]
  · simp [onWorkerFatalError, hf]

/-- Queue entry in the compressing state, used as witness data. -/
def fileCompressing : CompressedFile :=
  { id := "file-1", name := "a.png", originalSize := 1000, compressedSize := none,
    ratio := none, time := none, status := .compressing, error := none,
    outputFormat := .png }

/-- Queue entry already done, used as witness data. -/
def fileDone : CompressedFile :=
  { id := "file-2", name := "b.jpg", originalSize := 2000, compressedSize := some 900,
    ratio := some 55, time := some 12, status := .done, error := none,
    outputFormat := .jpeg }

/-- Claim C7 witness: the fatal-error update on a concrete two-element
queue, at the compressing entry. -/
theorem claim_C7_witness :
    (onWorkerFatalError [fileCompressing, fileDone]).length =
      [fileCompressing, fileDone].length ∧
    (onWorkerFatalError [fileCompressing, fileDone])[0]? =
      some (if fileCompressing.status = .compressing
            then { fileCompressing with status := .error, error := some engineCrashMsg }
            else fileCompressing) :=
  claim_C7 [fileCompressing, fileDone] 0 fileCompressing rfl

/-- Claim C8: over the closed six-format by four-level enumeration, the
quality table marks a pair supported exactly when it is neither
(jpeg, lossless) nor any heic pair. -/
theorem claim_C8 (f : SupportedFormat) (q : QualityLevel) :
    (COMPRESSION_CONFIG f q).supported = true ↔
      ¬((f = .jpeg ∧ q = .lossless) ∨ f = .heic) := by
  cases f <;> cases q <;> decide

/-- Claim C8 witness: the equivalence at the (jpeg, lossless) cell. -/
theorem claim_C8_witness :
    (COMPRESSION_CONFIG .jpeg .lossless).supported = true ↔
      ¬((SupportedFormat.jpeg = .jpeg ∧ QualityLevel.lossless = .lossless) ∨
        SupportedFormat.jpeg = .heic) :=
  claim_C8 .jpeg .lossless

/-- Claim C9: the compression-ratio function returns 0 when the original
size is 0 and otherwise rounds ((original - compressed) / original) ×
100; the result is positive only when the output is smaller, negative
only when it grew, and each of those inputs yields a result of the
matching sign or zero (zero absorbing the cases that round away). -/
theorem claim_C9 :
    (∀ c : ℕ, compressionRatio 0 c = 0) ∧
    (∀ o c : ℕ, o ≠ 0 → compressionRatio o c =
        round ((((o : ℕ) : ℚ) - ((c : ℕ) : ℚ)) / ((o : ℕ) : ℚ) * 100)) ∧
    (∀ o c : ℕ, 0 < compressionRatio o c → c < o) ∧
    (∀ o c : ℕ, compressionRatio o c < 0 → o < c) ∧
    (∀ o c : ℕ, c < o → 0 ≤ compressionRatio o c) ∧
    (∀ o c : ℕ, o < c → compressionRatio o c ≤ 0) := by
  have hwrap : ∀ o c : ℕ, o ≠ 0 → compressionRatio o c =
      round ((((o : ℕ) : ℚ) - ((c : ℕ) : ℚ)) / ((o : ℕ) : ℚ) * 100) := by
    intro o c h; simp [compressionRatio, h]
  have hnonneg : ∀ o c : ℕ, c < o → 0 ≤ compressionRatio o c := by
    intro o c h
    have ho : o ≠ 0 := by omega
    rw [hwrap o c ho]
    have := roundQ_mono (ratioVal_nonneg (o := o) (c := c) h.le)
    simpa using this
  have hnonpos : ∀ o c : ℕ, o < c → compressionRatio o c ≤ 0 := by
    intro o c h
    rcases Nat.eq_zero_or_pos o with h0 | hop
    · subst h0; simp [compressionRatio]
    · have ho : o ≠ 0 := by omega
      rw [hwrap o c ho]
      have := roundQ_mono (ratioVal_nonpos (o := o) (c := c) h.le)
      simpa using this
  refine ⟨fun c => by simp [compressionRatio], hwrap, ?_, ?_, hnonneg, hnonpos⟩
  · intro o c hpos
    by_contra hlt
    push_neg at hlt
    rcases Nat.eq_zero_or_pos o with h0 | hop
    · subst h0; simp [compressionRatio] at hpos
    · have ho : o ≠ 0 := by omega
      have hle := hwrap o c ho
      rw [hle] at hpos
      have := roundQ_mono (ratioVal_nonpos (o := o) (c := c) hlt)
      simp at this
      omega
  · intro o c hneg
    by_contra hlt
    push_neg at hlt
    rcases Nat.eq_zero_or_pos o with h0 | hop
    · subst h0; simp [compressionRatio] at hneg
    · have ho : o ≠ 0 := by omega
      have hle := hwrap o c ho
      rw [hle] at hneg
      have := roundQ_mono (ratioVal_nonneg (o := o) (c := c) hlt)
      simp at this
      omega

/-- Claim C9 witness: a shrinking pair yields a nonnegative ratio. -/
theorem claim_C9_witness :
    (60 : ℕ) < 100 ∧ 0 ≤ compressionRatio 100 60 :=
  ⟨by decide, claim_C9.2.2.2.2.1 100 60 (by decide)⟩

/-- Claim C10: mapping any of the six formats to its output mime and
back through the mime table is the identity, so the output mime of an
encode round-trips to the format that produced it. -/
theorem claim_C10 :
    ∀ f : SupportedFormat, mimeToFormat (formatToMime f) = some f := by
  intro f; cases f <;> decide
